import Mathlib

/-!
Verification development for the desktop orchestrator repository.

The definitions below are shallow embeddings of the TypeScript sources:

* `electron/services/types.ts`, `BaseBackendService` (`src/unnamed/part_008`):
  the managed-service state machine (`start` / `stop` / `restart` and the
  periodic health-check tick).
* `GoBackendService` (`src/unnamed/part_006`): readiness-line parsing and
  `buildBaseUrl`.
* `electron/lifecycle/AppLifecycle.ts`: the ordered backend startup.
* `electron/mcpClient.ts`: `McpClientManager.callTool` result normalization.
* `electron/agent/llmClient.ts`: the WebSocket stream-event handler of
  `LlmClient.createChatCompletion`, and the `ConversationManager`
  (`ensureTools`, `runAgentLoop`, `executeToolCall`, `sendUserMessage`,
  the FIFO `enqueue` chain, `appendMessage` / `resetConversation`).

Asynchrony is modelled by making each suspension outcome an explicit input:
process spawn / kill outcomes, health-probe outcomes, the list of model
responses consumed by the agent loop, and the MCP call outcome are oracle
parameters, so every definition is an executable function of its inputs.
-/

set_option maxRecDepth 8192

namespace DesktopMcp

/-! ## Managed services: `electron/services/types.ts` and `BaseBackendService` -/

/-- `BackendServiceStatus` from `electron/services/types.ts`. -/
inductive BackendServiceStatus
  | stopped
  | starting
  | running
  | stopping
  | error
  deriving DecidableEq, Repr

/-- The slice of `BackendServiceConfig` that the base class consults when
installing the health-check timer (`startHealthCheck` returns early unless
both `healthCheckUrl` and `healthCheckInterval` are truthy). -/
structure BackendServiceConfig where
  healthCheckUrl : Option String
  healthCheckInterval : Option Nat
  deriving DecidableEq, Repr

/-- `startHealthCheck` installs the interval timer only when the config has a
health-check URL and a non-zero interval (`0` is falsy in JavaScript). -/
def healthTimerGuard (cfg : BackendServiceConfig) : Bool :=
  cfg.healthCheckUrl.isSome &&
    (match cfg.healthCheckInterval with
      | none => false
      | some n => n != 0)

/-- The mutable fields of `BaseBackendService` that the lifecycle methods
touch: `status`, `error`, `process` (presence), and whether the health-check
timer is installed. -/
structure SvcState where
  status : BackendServiceStatus
  lastError : Option String
  hasProcess : Bool
  healthTimerOn : Bool
  deriving DecidableEq, Repr

/-- A freshly constructed service: `status = Stopped`, no process, no timer. -/
def SvcState.initial : SvcState :=
  { status := .stopped, lastError := none, hasProcess := false, healthTimerOn := false }

/-- Outcome of one periodic health-check callback's probe
(`performHealthCheck` resolves `true` / `false`, or rejects). -/
inductive ProbeOutcome
  | healthy
  | unhealthy
  | throws (msg : String)
  deriving DecidableEq, Repr

/-- Result of running one lifecycle operation: the successive values the
`status` field takes (in order), the resulting state, whether the method
threw, and whether the operation killed the service process. -/
structure OpResult where
  visited : List BackendServiceStatus
  state : SvcState
  threw : Bool
  killedProcess : Bool
  deriving Repr

/-- `BaseBackendService.start()`.  `spawnOutcome = none` means the spawn /
wait-for-ready steps succeeded; `some msg` means one of them threw `msg`.
Mirrors `src/unnamed/part_008` lines 65-99: no-op when `Running`, throws when
already `Starting`, otherwise transitions to `Starting`, then on success
starts the health timer and transitions to `Running`, on failure transitions
to `Error`, records the error and re-throws. -/
def svcStart (cfg : BackendServiceConfig) (st : SvcState)
    (spawnOutcome : Option String) : OpResult :=
  if st.status = .running then
    { visited := [], state := st, threw := false, killedProcess := false }
  else if st.status = .starting then
    { visited := [], state := st, threw := true, killedProcess := false }
  else
    match spawnOutcome with
    | none =>
        { visited := [.starting, .running]
          state := { status := .running, lastError := none, hasProcess := true,
                     healthTimerOn := healthTimerGuard cfg }
          threw := false
          killedProcess := false }
    | some msg =>
        { visited := [.starting, .error]
          state := { st with status := .error, lastError := some msg }
          threw := true
          killedProcess := false }

/-- `BaseBackendService.stop()` (`src/unnamed/part_008` lines 104-136): no-op
when `Stopped` or already `Stopping`, otherwise transitions to `Stopping`,
cancels the health timer, kills the process, and transitions to `Stopped`
(clearing the recorded error) or, if `killProcess` threw, to `Error`. -/
def svcStop (st : SvcState) (killOutcome : Option String) : OpResult :=
  if st.status = .stopped then
    { visited := [], state := st, threw := false, killedProcess := false }
  else if st.status = .stopping then
    { visited := [], state := st, threw := false, killedProcess := false }
  else
    match killOutcome with
    | none =>
        { visited := [.stopping, .stopped]
          state := { status := .stopped, lastError := none, hasProcess := false,
                     healthTimerOn := false }
          threw := false
          killedProcess := st.hasProcess }
    | some msg =>
        { visited := [.stopping, .error]
          state := { st with
                      status := .error
                      lastError := some msg
                      healthTimerOn := false }
          threw := true
          killedProcess := false }

/-- One firing of the `startHealthCheck` interval callback
(`src/unnamed/part_008` lines 182-205).  The callback only runs when the
timer is installed; it returns immediately unless `status` is `Running`;
a probe returning `false` transitions to `Error`, records the error and
emits an error event; a probe that rejects only records the error.  The
callback never touches the process.  The second component reports whether
`performHealthCheck` was invoked, the third whether an `error` event was
emitted. -/
def svcHealthTick (st : SvcState) (probe : ProbeOutcome) :
    SvcState × Bool × Bool × Bool :=
  if st.healthTimerOn = false then
    (st, false, false, false)
  else if st.status ≠ .running then
    (st, false, false, false)
  else
    match probe with
    | .healthy => (st, true, false, false)
    | .unhealthy =>
        ({ st with status := .error, lastError := some "Health check failed" },
          true, true, false)
    | .throws msg =>
        ({ st with lastError := some msg }, true, false, false)

/-- The health tick as a lifecycle operation (statuses visited, etc.). -/
def svcTickOp (st : SvcState) (probe : ProbeOutcome) : OpResult :=
  let r := svcHealthTick st probe
  { visited := if r.1.status = st.status then [] else [r.1.status]
    state := r.1
    threw := false
    killedProcess := false }

/-- The external operations a caller can perform on a managed service,
together with the outcome of each asynchronous sub-step. -/
inductive ServiceOp
  | start (spawnOutcome : Option String)
  | stop (killOutcome : Option String)
  | restart (killOutcome spawnOutcome : Option String)
  | tick (probe : ProbeOutcome)
  deriving Repr

/-- Run one operation.  `restart()` is `await stop(); await start()`, so a
`stop` that throws skips the `start` step. -/
def runServiceOp (cfg : BackendServiceConfig) (st : SvcState) :
    ServiceOp → OpResult
  | .start so => svcStart cfg st so
  | .stop ko => svcStop st ko
  | .restart ko so =>
      let r1 := svcStop st ko
      if r1.threw then r1
      else
        let r2 := svcStart cfg r1.state so
        { visited := r1.visited ++ r2.visited
          state := r2.state
          threw := r2.threw
          killedProcess := r1.killedProcess || r2.killedProcess }
  | .tick p => svcTickOp st p

/-- The consecutive `status` transitions along a path of visited statuses. -/
def pathEdges : BackendServiceStatus → List BackendServiceStatus →
    List (BackendServiceStatus × BackendServiceStatus)
  | _, [] => []
  | s, t :: rest => (s, t) :: pathEdges t rest

/-- All status transitions produced by a sequence of operations. -/
def traceEdges (cfg : BackendServiceConfig) (st : SvcState) :
    List ServiceOp → List (BackendServiceStatus × BackendServiceStatus)
  | [] => []
  | op :: ops =>
      let r := runServiceOp cfg st op
      pathEdges st.status r.visited ++ traceEdges cfg r.state ops

/-- Final state after a sequence of operations. -/
def traceState (cfg : BackendServiceConfig) (st : SvcState) :
    List ServiceOp → SvcState
  | [] => st
  | op :: ops => traceState cfg (runServiceOp cfg st op).state ops

/-- The transition edges that §3 of the specification declares legal, read
generously: the chain `Stopped → Starting → Running → Stopping →
Stopped/Error` (failure during startup or shutdown falls to `Error`),
`Running → Error` on health-check failure, and `Error/Running → Stopping`
on shutdown. -/
def specEdge : BackendServiceStatus → BackendServiceStatus → Bool
  | .stopped, .starting => true
  | .starting, .running => true
  | .starting, .error => true
  | .running, .stopping => true
  | .running, .error => true
  | .stopping, .stopped => true
  | .stopping, .error => true
  | .error, .stopping => true
  | _, _ => false

/-- The edge set the code actually realizes: the §3 edges plus
`Error → Starting`, taken whenever `start()` is invoked while the service
is in the `Error` state (`start()` only rejects the `Running` and
`Starting` states). -/
def codeEdge (a b : BackendServiceStatus) : Bool :=
  specEdge a b || (a = .error && b = .starting)

/-- Whether every transition of a trace lies in the §3 edge set. -/
def specEdgesOnly (cfg : BackendServiceConfig) (st : SvcState)
    (ops : List ServiceOp) : Bool :=
  (traceEdges cfg st ops).all fun e => specEdge e.1 e.2

/-- A sample config with no health-check URL (the Go backend's config in
`BackendServiceManager.createGoBackendService`). -/
def goCfg : BackendServiceConfig :=
  { healthCheckUrl := none, healthCheckInterval := some 5000 }

/-- A config with a health-check URL (the Python backend's config). -/
def pyCfg : BackendServiceConfig :=
  { healthCheckUrl := some "http://127.0.0.1:18061/health",
    healthCheckInterval := some 5000 }

/-- The statuses at which a service can rest between operations: every
lifecycle method runs to completion, leaving `Stopped`, `Running` or
`Error` (`Starting` and `Stopping` are transient within a call). -/
def restStatus (s : BackendServiceStatus) : Prop :=
  s = .stopped ∨ s = .running ∨ s = .error

lemma svcStep_ok (cfg : BackendServiceConfig) (st : SvcState) (op : ServiceOp)
    (h : restStatus st.status) :
    ((pathEdges st.status (runServiceOp cfg st op).visited).all
        fun e => codeEdge e.1 e.2) = true
    ∧ restStatus (runServiceOp cfg st op).state.status := by
  obtain ⟨sts, le, hp, ht⟩ := st
  simp only [restStatus] at h ⊢
  cases op with
  | start so =>
      rcases so with _ | msg <;> rcases h with h | h | h <;>
        simp_all [runServiceOp, svcStart, pathEdges, codeEdge, specEdge]
  | stop ko =>
      rcases ko with _ | msg <;> rcases h with h | h | h <;>
        simp_all [runServiceOp, svcStop, pathEdges, codeEdge, specEdge]
  | restart ko so =>
      rcases ko with _ | msg <;> rcases so with _ | msg' <;>
        rcases h with h | h | h <;>
        simp_all [runServiceOp, svcStop, svcStart, pathEdges, codeEdge, specEdge]
  | tick p =>
      cases ht <;> rcases p with _ | _ | msg <;> rcases h with h | h | h <;>
        simp_all [runServiceOp, svcTickOp, svcHealthTick, pathEdges, codeEdge,
          specEdge]

lemma traceEdges_code (ops : List ServiceOp) :
    ∀ (cfg : BackendServiceConfig) (st : SvcState), restStatus st.status →
      ((traceEdges cfg st ops).all fun e => codeEdge e.1 e.2) = true := by
  induction ops with
  | nil => intro cfg st _; simp [traceEdges]
  | cons op ops ih =>
      intro cfg st h
      have hs := svcStep_ok cfg st op h
      simp only [traceEdges, List.all_append]
      exact (Bool.and_eq_true _ _).mpr ⟨hs.1, ih cfg _ hs.2⟩

/-- C1 (corrected).  From any resting state, every `status` transition
produced by a sequence of `start()` / `stop()` / `restart()` calls and
health-check ticks lies in the §3 edge set extended with `Error → Starting`
(the code lets `start()` run from the `Error` state, moving the status
directly from `Error` to `Starting`); and `start()` invoked while the
status is `Starting` throws without performing any transition. -/
theorem c1_state_machine_amended (cfg : BackendServiceConfig) (st : SvcState)
    (ops : List ServiceOp) (h : restStatus st.status) :
    ((traceEdges cfg st ops).all fun e => codeEdge e.1 e.2) = true
    ∧ ∀ (st' : SvcState) (so : Option String), st'.status = .starting →
        (svcStart cfg st' so).threw = true ∧ (svcStart cfg st' so).visited = [] := by
  refine ⟨traceEdges_code ops cfg st h, ?_⟩
  intro st' so h'
  have hns : ¬ st'.status = BackendServiceStatus.running := by
    rw [h']; intro hc; cases hc
  constructor <;> simp [svcStart, h', hns]

/-- Witness for `c1_state_machine_amended` at a concrete run: start the Go
backend, observe a failing health probe, then stop it. -/
theorem c1_state_machine_amended_witness :
    ((traceEdges goCfg SvcState.initial
        [ServiceOp.start none, ServiceOp.tick ProbeOutcome.unhealthy,
         ServiceOp.stop none]).all fun e => codeEdge e.1 e.2) = true
    ∧ ∀ (st' : SvcState) (so : Option String), st'.status = .starting →
        (svcStart goCfg st' so).threw = true ∧ (svcStart goCfg st' so).visited = [] :=
  c1_state_machine_amended goCfg SvcState.initial
    [ServiceOp.start none, ServiceOp.tick ProbeOutcome.unhealthy,
     ServiceOp.stop none] (Or.inl rfl)

/-- C1 counterexample: after a failed `start()` (status `Error`), calling
`start()` again transitions `Error → Starting`, an edge the §3 list does not
contain, so the trace leaves the claimed edge set. -/
theorem c1_counterexample :
    specEdgesOnly goCfg SvcState.initial
        [ServiceOp.start (some "spawn failed"), ServiceOp.start none] = false
    ∧ (BackendServiceStatus.error, BackendServiceStatus.starting) ∈
        traceEdges goCfg SvcState.initial
          [ServiceOp.start (some "spawn failed"), ServiceOp.start none]
    ∧ specEdge BackendServiceStatus.error BackendServiceStatus.starting = false := by
  refine ⟨rfl, ?_, rfl⟩
  simp [traceEdges, runServiceOp, svcStart, SvcState.initial, pathEdges]

/-- C8.  A health-check tick invokes the probe only while the status is
`Running` (and only when the timer is installed); a probe that reports
failure transitions the status to `Error` and emits an `error` event; and
the tick never kills the underlying process. -/
theorem c8_health_check (st : SvcState) (probe : ProbeOutcome) :
    ((svcHealthTick st probe).2.1 = true →
        st.status = .running ∧ st.healthTimerOn = true)
    ∧ (st.healthTimerOn = true → st.status = .running → probe = .unhealthy →
        (svcHealthTick st probe).1.status = .error
          ∧ (svcHealthTick st probe).2.2.1 = true)
    ∧ (svcHealthTick st probe).2.2.2 = false := by
  obtain ⟨sts, le, hp, ht⟩ := st
  cases ht <;> cases sts <;> rcases probe with _ | _ | msg <;>
    simp_all [svcHealthTick]

/-- Witness for `c8_health_check`: a running Python backend whose probe
fails is marked `Error`, emits an error event, and is not killed. -/
theorem c8_health_check_witness :
    (((svcHealthTick
          { status := .running, lastError := none, hasProcess := true,
            healthTimerOn := true } ProbeOutcome.unhealthy).2.1 = true →
        ({ status := .running, lastError := none, hasProcess := true,
           healthTimerOn := true } : SvcState).status = .running
          ∧ ({ status := .running, lastError := none, hasProcess := true,
               healthTimerOn := true } : SvcState).healthTimerOn = true))
    ∧ (({ status := .running, lastError := none, hasProcess := true,
          healthTimerOn := true } : SvcState).healthTimerOn = true →
        ({ status := .running, lastError := none, hasProcess := true,
           healthTimerOn := true } : SvcState).status = .running →
        ProbeOutcome.unhealthy = .unhealthy →
        (svcHealthTick
            { status := .running, lastError := none, hasProcess := true,
              healthTimerOn := true } ProbeOutcome.unhealthy).1.status = .error
          ∧ (svcHealthTick
              { status := .running, lastError := none, hasProcess := true,
                healthTimerOn := true } ProbeOutcome.unhealthy).2.2.1 = true)
    ∧ (svcHealthTick
        { status := .running, lastError := none, hasProcess := true,
          healthTimerOn := true } ProbeOutcome.unhealthy).2.2.2 = false :=
  c8_health_check
    { status := .running, lastError := none, hasProcess := true,
      healthTimerOn := true } ProbeOutcome.unhealthy

/-! ## Readiness parsing and ordered startup: `GoBackendService` and
`AppLifecycle.setupBackendServices` -/

/-- Characters JavaScript's `trim()` removes (the common ASCII whitespace). -/
def jsWhitespace (c : Char) : Bool :=
  c = ' ' || c = '\t' || c = '\n' || c = '\r'

/-- `String.prototype.trim()`: drop leading and trailing whitespace. -/
def jsTrim (s : String) : String :=
  String.mk
    (((s.toList.dropWhile jsWhitespace).reverse.dropWhile jsWhitespace).reverse)

/-- `String.prototype.startsWith(p)`. -/
def jsStartsWith (s p : String) : Bool :=
  p.toList.isPrefixOf s.toList

/-- Strip one leading `+` or `-` sign. -/
def stripSign : List Char → List Char
  | '+' :: cs => cs
  | '-' :: cs => cs
  | cs => cs

/-- Split at the first `e`/`E` (exponent marker of a JS number literal). -/
def splitExp : List Char → List Char × Option (List Char)
  | [] => ([], none)
  | c :: cs =>
      if c = 'e' ∨ c = 'E' then ([], some cs)
      else
        let r := splitExp cs
        (c :: r.1, r.2)

/-- Split at the first `.` of a JS number literal. -/
def splitDot : List Char → List Char × Option (List Char)
  | [] => ([], none)
  | c :: cs =>
      if c = '.' then ([], some cs)
      else
        let r := splitDot cs
        (c :: r.1, r.2)

/-- Mantissa shapes `Number` accepts: `digits`, `digits.`, `digits.digits`,
`.digits`. -/
def mantissaOk (cs : List Char) : Bool :=
  let r := splitDot cs
  match r.2 with
  | none => !r.1.isEmpty && r.1.all Char.isDigit
  | some f =>
      r.1.all Char.isDigit && f.all Char.isDigit && (!r.1.isEmpty || !f.isEmpty)

/-- Models `!isNaN(Number(s))` for an already-trimmed string `s`: the empty
string coerces to `0`; `0x`/`0o`/`0b` radix literals; signed `Infinity`;
otherwise an optionally signed decimal with optional exponent. -/
def jsNumericB (s : String) : Bool :=
  match s.toList with
  | [] => true
  | '0' :: 'x' :: rest => !rest.isEmpty && rest.all (fun c => c.isDigit ||
      ('a' ≤ c && c ≤ 'f') || ('A' ≤ c && c ≤ 'F'))
  | '0' :: 'X' :: rest => !rest.isEmpty && rest.all (fun c => c.isDigit ||
      ('a' ≤ c && c ≤ 'f') || ('A' ≤ c && c ≤ 'F'))
  | '0' :: 'o' :: rest => !rest.isEmpty && rest.all (fun c => '0' ≤ c && c ≤ '7')
  | '0' :: 'O' :: rest => !rest.isEmpty && rest.all (fun c => '0' ≤ c && c ≤ '7')
  | '0' :: 'b' :: rest => !rest.isEmpty && rest.all (fun c => c = '0' || c = '1')
  | '0' :: 'B' :: rest => !rest.isEmpty && rest.all (fun c => c = '0' || c = '1')
  | cs =>
      let cs' := stripSign cs
      if cs' = "Infinity".toList then true
      else
        let r := splitExp cs'
        mantissaOk r.1 &&
          (match r.2 with
            | none => true
            | some ec =>
                let ec' := stripSign ec
                !ec'.isEmpty && ec'.all Char.isDigit)

/-- Take the characters before the first `]`, returning them and the rest
(the `[^\]]+` capture of `buildBaseUrl`'s IPv6 regex). -/
def takeUntilRBracket : List Char → Option (List Char × List Char)
  | [] => none
  | c :: cs =>
      if c = ']' then some ([], cs)
      else
        match takeUntilRBracket cs with
        | some r => some (c :: r.1, r.2)
        | none => none

/-- The IPv6 regex `^\[([^\]]+)\]:(\d+)$` of `GoBackendService.buildBaseUrl`:
a non-empty bracketed host, a colon, then one or more digits to the end. -/
def bracketHostPort (cs : List Char) : Option (String × String) :=
  match cs with
  | '[' :: rest =>
      match takeUntilRBracket rest with
      | some (host, t) =>
          if host.isEmpty then none
          else
            match t with
            | ':' :: ds =>
                if !ds.isEmpty && ds.all Char.isDigit then
                  some (String.mk host, String.mk ds)
                else none
            | _ => none
      | none => none
  | _ => none

/-- Split a character list at its last colon (`String.lastIndexOf(':')`):
returns the parts before and after that colon. -/
def lastColonSplit : List Char → Option (List Char × List Char)
  | [] => none
  | c :: cs =>
      match lastColonSplit cs with
      | some r => some (c :: r.1, r.2)
      | none => if c = ':' then some ([], cs) else none

/-- `GoBackendService.buildBaseUrl` (`src/unnamed/part_006` lines 211-244):
derives the HTTP base URL from the `host:port` address the readiness line
carries, normalizing wildcard/IPv6-any hosts to `127.0.0.1` and falling back
to `http://127.0.0.1:18060` when no port can be parsed. -/
def buildBaseUrl (addr : String) : String :=
  let ipv4Branch :=
    match lastColonSplit addr.toList with
    | none => "http://127.0.0.1:18060"
    | some r =>
        let host0 := jsTrim (String.mk r.1)
        let port := jsTrim (String.mk r.2)
        let host :=
          if host0 = "" ∨ host0 = "0.0.0.0" ∨ host0 = "::" then "127.0.0.1"
          else host0
        if port = "" ∨ jsNumericB port = false then "http://127.0.0.1:18060"
        else "http://" ++ host ++ ":" ++ port
  if jsStartsWith addr "[" then
    match bracketHostPort addr.toList with
    | some hp =>
        if hp.1 = "::" ∨ hp.1 = "::1" ∨ hp.1 = "" then
          "http://127.0.0.1:" ++ hp.2
        else "http://[" ++ hp.1 ++ "]:" ++ hp.2
    | none => ipv4Branch
  else ipv4Branch

/-- One stdout line of `GoBackendService.waitForReady`'s `handleData`: lines
are trimmed; a line starting with `APP_SERVER_ADDR=` yields the address
(the remainder, trimmed). -/
def handleReadyLine (line : String) : Option String :=
  let t := jsTrim line
  if jsStartsWith t "APP_SERVER_ADDR=" then
    some (jsTrim (String.mk (t.toList.drop "APP_SERVER_ADDR=".length)))
  else none

/-- `GoBackendService.waitForReady` over the spawned process's stdout lines:
resolves with the address and derived base URL from the first readiness
line, or fails (startup timeout) when no line matches. -/
def goWaitForReady : List String → Option (String × String)
  | [] => none
  | l :: ls =>
      match handleReadyLine l with
      | some addr => some (addr, buildBaseUrl addr)
      | none => goWaitForReady ls

/-- The observable outcome of `AppLifecycle.setupBackendServices`:
`pythonEnvMcpUrlAtSpawn = some x` records that the Python (inference)
service's `start` was invoked and that `x` was the value of
`process.env.MCP_SERVER_URL` at that moment, i.e. the configuration
`PythonBackendService.spawnProcess` copies into the child's environment. -/
structure LifecycleOutcome where
  goRunning : Bool
  conversationBaseUrl : Option String
  envMcpServerUrl : Option String
  pythonEnvMcpUrlAtSpawn : Option (Option String)
  deriving DecidableEq, Repr

/-- `AppLifecycle.setupBackendServices` (lines 101-119): start the Go
backend first; once it is running, read `getBaseUrl()` and, when non-empty,
hand it to the conversation manager and set `process.env.MCP_SERVER_URL`;
only then start the Python backend, whose spawn reads that variable. If the
Go backend never signals readiness, its `start` rejects and the catch block
skips the remaining steps. -/
def setupBackendServices (goStdout : List String) : LifecycleOutcome :=
  match goWaitForReady goStdout with
  | none =>
      { goRunning := false, conversationBaseUrl := none,
        envMcpServerUrl := none, pythonEnvMcpUrlAtSpawn := none }
  | some ar =>
      if ar.2 = "" then
        { goRunning := true, conversationBaseUrl := none,
          envMcpServerUrl := none, pythonEnvMcpUrlAtSpawn := some none }
      else
        { goRunning := true, conversationBaseUrl := some ar.2,
          envMcpServerUrl := some ar.2,
          pythonEnvMcpUrlAtSpawn := some (some ar.2) }

/-- C5.  With readiness line `APP_SERVER_ADDR=127.0.0.1:5555`, the derived
base URL is `http://127.0.0.1:5555` and it is present in
`process.env.MCP_SERVER_URL` at the moment the inference (Python) service's
start is invoked. -/
theorem c5_ordered_startup :
    buildBaseUrl "127.0.0.1:5555" = "http://127.0.0.1:5555"
    ∧ setupBackendServices ["APP_SERVER_ADDR=127.0.0.1:5555"] =
        { goRunning := true
          conversationBaseUrl := some "http://127.0.0.1:5555"
          envMcpServerUrl := some "http://127.0.0.1:5555"
          pythonEnvMcpUrlAtSpawn := some (some "http://127.0.0.1:5555") } := by
  constructor <;> decide

/-! ## Tool catalog bridge: `electron/mcpClient.ts` and
`ConversationManager.executeToolCall` / `ensureTools` -/

/-- A tool call requested by the model (`llmClient.ts` `LlmResponse`):
the argument object is kept as its serialized JSON text. -/
structure ToolCall where
  id : String
  name : String
  args : String
  deriving DecidableEq, Repr

/-- One item of an MCP tool response's `content` list (text, or an image
carrying a mime type and a base64 payload of the given length). -/
inductive McpContentItem
  | text (t : String)
  | image (mimeType : Option String) (dataLength : Nat)
  | otherKind
  deriving DecidableEq, Repr

/-- The MCP SDK's `callTool` response as `McpClientManager.callTool`
consumes it: an optional content list and an optional `isError` flag. -/
structure McpCallResult where
  content : Option (List McpContentItem)
  isError : Option Bool
  deriving DecidableEq, Repr

/-- `CallToolResponse` from `electron/mcpClient.ts`; `raw` holds the
underlying payload (`none` models the `null` the error path stores). -/
structure CallToolResponse where
  content : String
  raw : Option McpCallResult
  isError : Bool
  deriving DecidableEq, Repr

/-- The text reduction inside `McpClientManager.callTool`: text parts pass
through, image parts become a placeholder naming the mime type and base64
size, anything else is skipped; parts are joined with newlines. -/
def joinContentParts (items : List McpContentItem) : String :=
  String.intercalate "\n" <| items.filterMap fun item =>
    match item with
    | .text t => some t
    | .image mt len =>
        some ("[图片(" ++ mt.getD "unknown" ++ ")，base64大小=" ++ toString len ++ "]")
    | .otherKind => none

/-- `McpClientManager.callTool` (`mcpClient.ts` lines 89-134).  `underlying`
is the outcome of `ensureConnected` plus the SDK `client.callTool` await
(`Except.error` models a rejection anywhere on that path).  On success the
content list is reduced to a newline-joined text blob and the protocol-level
`isError` flag is normalized with `Boolean(...)`; on failure the catch block
logs and **re-throws** the error. -/
def mcpCallTool (_name : String) (underlying : Except String McpCallResult) :
    Except String CallToolResponse :=
  match underlying with
  | .error e => .error e
  | .ok resp =>
      .ok { content := joinContentParts (resp.content.getD [])
            raw := some resp
            isError := resp.isError.getD false }

/-- `ConversationManager.executeToolCall` (`llmClient.ts` lines 681-726):
awaits `mcpManager.callTool`; a thrown error is converted into a normalized
result whose text names the failing tool; a successful result whose content
is blank is replaced by a placeholder sentence.  The function is total: no
exception escapes to the agent loop. -/
def executeToolCall (call : ToolCall)
    (underlying : Except String McpCallResult) : CallToolResponse :=
  match mcpCallTool call.name underlying with
  | .error e =>
      { content := "调用工具 " ++ call.name ++ " 失败：" ++ e
        raw := none
        isError := true }
  | .ok r =>
      if jsTrim r.content = "" then
        { r with content := "工具调用成功，但未返回文本内容。" }
      else r

/-- C4 counterexample: when the underlying MCP call rejects,
`McpClientManager.callTool` re-throws instead of returning a normalized
`isError` result, contradicting the claim's "rather than throwing". -/
theorem c4_counterexample :
    mcpCallTool "search_feeds" (Except.error "connection lost")
      = Except.error "connection lost" := rfl

/-- C4 (corrected).  Normalization happens one layer up: for every tool
invocation of the agent loop, if the underlying call throws then
`executeToolCall` — a total function, so no exception escapes the loop —
returns `isError = true` with a text naming the failing tool; the bridge's
own `callTool` propagates the throw unchanged. -/
theorem c4_tool_error_normalized (call : ToolCall)
    (underlying : Except String McpCallResult) :
    (∀ e, underlying = Except.error e →
        executeToolCall call underlying =
          { content := "调用工具 " ++ call.name ++ " 失败：" ++ e
            raw := none
            isError := true })
    ∧ (∀ e, underlying = Except.error e →
        mcpCallTool call.name underlying = Except.error e) := by
  constructor <;> intro e he <;> subst he <;> rfl

/-- Witness for `c4_tool_error_normalized` at a concrete failing call. -/
theorem c4_tool_error_normalized_witness :
    executeToolCall { id := "call-1", name := "search_feeds", args := "" }
        (Except.error "connection lost")
      = { content := "调用工具 search_feeds 失败：connection lost"
          raw := none
          isError := true }
    ∧ mcpCallTool "search_feeds" (Except.error "connection lost")
        = Except.error "connection lost" :=
  ⟨(c4_tool_error_normalized
      { id := "call-1", name := "search_feeds", args := "" }
      (Except.error "connection lost")).1 "connection lost" rfl,
   (c4_tool_error_normalized
      { id := "call-1", name := "search_feeds", args := "" }
      (Except.error "connection lost")).2 "connection lost" rfl⟩

/-! ## Tool definitions: `ConversationManager.ensureTools` -/

/-- The slice of an MCP tool's JSON input schema that `ensureTools` copies
(property sub-schemas are kept as serialized text). -/
structure ToolInputSchema where
  type : Option String
  properties : Option (List (String × String))
  required : Option (List String)
  additionalProperties : Option Bool
  deriving DecidableEq, Repr

/-- An MCP catalog tool (`Tool` from the SDK): `name` is required,
`description` and `inputSchema` are optional. -/
structure McpTool where
  name : String
  description : Option String
  inputSchema : Option ToolInputSchema
  deriving DecidableEq, Repr

/-- The `parameters` object handed to the inference transport.  In the
default branch the code emits no `required` field, hence the `Option`. -/
structure ToolParameters where
  type : String
  properties : List (String × String)
  required : Option (List String)
  additionalProperties : Option Bool
  deriving DecidableEq, Repr

/-- The `function` part of a `ChatCompletionTool`. -/
structure ToolFunctionDef where
  name : String
  description : String
  parameters : ToolParameters
  deriving DecidableEq, Repr

/-- The open object schema `ensureTools` substitutes when a tool declares
no schema: `type: 'object'`, empty `properties`, `additionalProperties:
true` (and no `required` list). -/
def openObjectSchema : ToolParameters :=
  { type := "object", properties := [], required := none,
    additionalProperties := some true }

/-- One tool's translation inside `ConversationManager.ensureTools`
(`llmClient.ts` lines 444-496): a missing schema becomes the open object
schema; an existing schema keeps `type`/`properties`/`required` with
defaults and copies `additionalProperties` only when defined; the
description is `tool.description ?? tool.name` (the further fallback in the
source is unreachable because an MCP tool's `name` is always present). -/
def ensureToolDefinition (tool : McpTool) : ToolFunctionDef :=
  let schema :=
    match tool.inputSchema with
    | none => openObjectSchema
    | some s =>
        { type := s.type.getD "object"
          properties := s.properties.getD []
          required := some (s.required.getD [])
          additionalProperties := s.additionalProperties }
  { name := tool.name
    description := tool.description.getD tool.name
    parameters := schema }

/-- C9 counterexample: a tool whose `description` is present but empty is
forwarded with an empty description — `??` only replaces `null`/`undefined`
— so the guaranteed-non-empty-description part of the claim fails. -/
theorem c9_counterexample :
    (ensureToolDefinition
        { name := "search_feeds", description := some "", inputSchema := none
        }).description = "" := rfl

/-- C9 (corrected).  A tool with no declared schema gets the open object
schema; the description falls back to the tool's bare name only when the
tool provides no description at all (`null`/`undefined`); a provided
description — even the empty string — is forwarded unchanged, so
non-emptiness is only guaranteed in the fallback case for non-empty names. -/
theorem c9_tool_definition_defaults (tool : McpTool) :
    (tool.inputSchema = none →
        (ensureToolDefinition tool).parameters = openObjectSchema)
    ∧ (tool.description = none →
        (ensureToolDefinition tool).description = tool.name)
    ∧ (∀ d, tool.description = some d →
        (ensureToolDefinition tool).description = d)
    ∧ (tool.description = none → tool.name ≠ "" →
        (ensureToolDefinition tool).description ≠ "") := by
  obtain ⟨n, d, s⟩ := tool
  refine ⟨?_, ?_, ?_, ?_⟩
  · intro h; subst h; rfl
  · intro h; subst h; rfl
  · intro d' h; subst h; rfl
  · intro h hn; subst h; simpa [ensureToolDefinition] using hn

/-- Witness for `c9_tool_definition_defaults`: a schema-less,
description-less tool named `search_feeds`. -/
theorem c9_tool_definition_defaults_witness :
    (ensureToolDefinition
        { name := "search_feeds", description := none, inputSchema := none
        }).parameters = openObjectSchema
    ∧ (ensureToolDefinition
        { name := "search_feeds", description := none, inputSchema := none
        }).description = "search_feeds"
    ∧ (ensureToolDefinition
        { name := "search_feeds", description := none, inputSchema := none
        }).description ≠ "" :=
  ⟨(c9_tool_definition_defaults _).1 rfl,
   (c9_tool_definition_defaults _).2.1 rfl,
   (c9_tool_definition_defaults
      { name := "search_feeds", description := none, inputSchema := none
      }).2.2.2 rfl (by decide)⟩

/-! ## Streaming transport: `LlmClient.createChatCompletion` -/

/-- A raw tool call as it appears in a `tool_call` stream chunk
(`{id, type, function: {name, arguments}}`); `arguments` may arrive as a
JSON string or object and is kept as its serialized text. -/
structure RawToolCall where
  id : String
  rtype : String
  fname : String
  fargs : String
  deriving DecidableEq, Repr

/-- Convert a raw stream tool call to the client's tool-call shape
(`JSON.parse` of string arguments is modelled as carrying the text through). -/
def toToolCall (tc : RawToolCall) : ToolCall :=
  { id := tc.id, name := tc.fname, args := tc.fargs }

/-- The tag of a `StreamChunk`. -/
inductive ChunkType
  | chunk
  | toolCallTag
  | done
  | errorTag
  deriving DecidableEq, Repr

/-- `StreamChunk` from `llmClient.ts`: one parsed WebSocket message, a tag
plus optional fields. -/
structure StreamChunk where
  type : ChunkType
  content : Option String
  toolCalls : Option (List RawToolCall)
  finishReason : Option String
  error : Option String
  deriving DecidableEq, Repr

/-- `LlmResponse` — the value `createChatCompletion` resolves with. -/
structure LlmResponse where
  content : Option String
  toolCalls : Option (List ToolCall)
  finishReason : Option String
  deriving DecidableEq, Repr

deriving instance DecidableEq for Except

/-- The local state of one `createChatCompletion` call: the accumulation
buffer, the captured tool calls, `finishReason`, the `hasError` flag,
whether the 120 s watchdog timer is still armed, and how the promise has
settled (`none` = still pending; a JS promise keeps its first settlement). -/
structure WsHandlerState where
  accumulatedContent : String
  toolCalls : List ToolCall
  finishReason : Option String
  hasError : Bool
  timeoutActive : Bool
  settled : Option (Except String LlmResponse)
  deriving DecidableEq, Repr

/-- State before any event: empty buffer, pending promise, armed watchdog. -/
def initWsState : WsHandlerState :=
  { accumulatedContent := "", toolCalls := [], finishReason := none,
    hasError := false, timeoutActive := true, settled := none }

/-- Settle the promise: a second `resolve`/`reject` is a no-op. -/
def settle (st : WsHandlerState) (r : Except String LlmResponse) :
    WsHandlerState :=
  if st.settled.isSome then st else { st with settled := some r }

/-- The 120-second watchdog (`setTimeout(..., 120_000)`). -/
def watchdogMillis : Nat := 120000

/-- The externally visible events a `createChatCompletion` call receives:
a parsed message, a message whose JSON parse (or handling) threw, a
transport `error` event, the `close` event, and the watchdog firing. -/
inductive WsEvent
  | message (c : StreamChunk)
  | malformedMessage (parseError : String)
  | wsError (msg : String)
  | close
  | timeoutFire
  deriving DecidableEq, Repr

/-- The text the `done` handler leaves in the buffer: a truthy (non-empty)
`content` field overrides, otherwise the accumulated buffer stands
(`if (chunk.content) accumulatedContent = chunk.content`). -/
def doneText (doneContent : Option String) (buffer : String) : String :=
  match doneContent with
  | some s => if s ≠ "" then s else buffer
  | none => buffer

/-- One event of the `createChatCompletion` handlers (`llmClient.ts` lines
154-229).  `chunk` events with truthy content extend the buffer; `tool_call`
events overwrite the captured tool-call list; `done` stores the finish
reason, prefers a truthy final `content`, disarms the watchdog and resolves
with the buffer (empty buffer resolves to `null` content); `error` events,
parse failures, transport errors, a close without a prior `done`, and the
watchdog each reject (first settlement wins). -/
def wsStep (st : WsHandlerState) (e : WsEvent) : WsHandlerState :=
  match e with
  | .message c =>
      match c.type with
      | .chunk =>
          match c.content with
          | some s =>
              if s ≠ "" then
                { st with accumulatedContent := st.accumulatedContent ++ s }
              else st
          | none => st
      | .toolCallTag =>
          match c.toolCalls with
          | some tcs => { st with toolCalls := tcs.map toToolCall }
          | none => st
      | .done =>
          settle
            { accumulatedContent := doneText c.content st.accumulatedContent
              toolCalls := st.toolCalls
              finishReason := c.finishReason
              hasError := false
              timeoutActive := false
              settled := st.settled }
            (.ok
              { content :=
                  if doneText c.content st.accumulatedContent = "" then none
                  else some (doneText c.content st.accumulatedContent)
                toolCalls :=
                  if st.toolCalls.isEmpty then none else some st.toolCalls
                finishReason := c.finishReason })
      | .errorTag =>
          settle { st with timeoutActive := false, hasError := true }
            (.error (c.error.getD "未知错误"))
  | .malformedMessage parseError =>
      if st.hasError = true then st
      else
        settle { st with hasError := true, timeoutActive := false }
          (.error parseError)
  | .wsError msg =>
      if st.hasError = true then st
      else
        settle { st with hasError := true, timeoutActive := false }
          (.error msg)
  | .close =>
      let st1 := { st with timeoutActive := false }
      if st1.hasError = false ∧ st1.finishReason = none then
        settle { st1 with hasError := true }
          (.error "WebSocket 连接意外关闭")
      else st1
  | .timeoutFire =>
      if st.timeoutActive = true ∧ st.hasError = false then
        settle { st with hasError := true } (.error "WebSocket 请求超时")
      else st

/-- Run a `createChatCompletion` call over its event sequence. -/
def wsRun (es : List WsEvent) : WsHandlerState :=
  es.foldl wsStep initWsState

/-- A plain content chunk. -/
def chunkEvt (s : String) : WsEvent :=
  .message { type := .chunk, content := some s, toolCalls := none,
             finishReason := none, error := none }

/-- A `done` chunk with optional final content and finish reason. -/
def doneEvt (content fr : Option String) : WsEvent :=
  .message { type := .done, content := content, toolCalls := none,
             finishReason := fr, error := none }

/-- Concatenation of the chunk contents, in arrival order. -/
def strConcat : List String → String
  | [] => ""
  | s :: rest => s ++ strConcat rest

/-- Reachability invariant of the handler state: an observed `hasError` or a
recorded finish reason implies the promise has settled, and a pending
promise still has the watchdog armed. -/
def WsInv (st : WsHandlerState) : Prop :=
  (st.hasError = true → st.settled.isSome = true)
  ∧ (st.finishReason.isSome = true → st.settled.isSome = true)
  ∧ (st.settled = none → st.timeoutActive = true)

lemma settle_settled_isSome (st : WsHandlerState)
    (r : Except String LlmResponse) :
    ((settle st r).settled).isSome = true := by
  unfold settle
  split
  · assumption
  · rfl

lemma settle_settled_of_some {st : WsHandlerState}
    {x : Except String LlmResponse} (h : st.settled = some x)
    (r : Except String LlmResponse) : (settle st r).settled = some x := by
  unfold settle
  split
  · exact h
  · simp [h] at *

lemma settle_settled_of_none {st : WsHandlerState} (h : st.settled = none)
    (r : Except String LlmResponse) : (settle st r).settled = some r := by
  unfold settle
  rw [if_neg]
  simp [h]

lemma settle_inv (st : WsHandlerState) (r : Except String LlmResponse) :
    WsInv (settle st r) := by
  have h := settle_settled_isSome st r
  refine ⟨fun _ => h, fun _ => h, fun hn => absurd h (by simp [hn])⟩

lemma strEmpty_append (a : String) : "" ++ a = a := by
  rcases a with ⟨a⟩
  show String.mk ([] ++ a) = String.mk a
  rw [List.nil_append]

lemma strAppend_assoc (a b c : String) : a ++ b ++ c = a ++ (b ++ c) := by
  rcases a with ⟨a⟩; rcases b with ⟨b⟩; rcases c with ⟨c⟩
  show String.mk (a ++ b ++ c) = String.mk (a ++ (b ++ c))
  rw [List.append_assoc]

lemma strAppend_empty (a : String) : a ++ "" = a := by
  rcases a with ⟨a⟩
  show String.mk (a ++ []) = String.mk a
  rw [List.append_nil]

lemma wsRun_chunks (cs : List String) :
    ∀ st : WsHandlerState,
      (cs.map chunkEvt).foldl wsStep st
        = { st with
              accumulatedContent := st.accumulatedContent ++ strConcat cs } := by
  induction cs with
  | nil => intro st; simp [strConcat, strAppend_empty]
  | cons c cs ih =>
      intro st
      by_cases hc : c = ""
      · subst hc
        simp [wsStep, chunkEvt, strConcat, ih]
      · simp only [List.map_cons, List.foldl_cons, wsStep, chunkEvt]
        rw [if_pos hc]
        rw [ih]
        simp [strConcat, strAppend_assoc]

/-- C6 counterexample: a `done` event that carries a `content` field whose
value is the empty string does **not** become the final text (`if
(chunk.content)` is a truthiness test), the accumulated buffer wins. -/
theorem c6_counterexample :
    (wsRun [chunkEvt "Hi", doneEvt (some "") (some "stop")]).settled
      = some (Except.ok
          { content := some "Hi", toolCalls := none,
            finishReason := some "stop" })
    ∧ (wsRun [chunkEvt "Hi", doneEvt (some "") (some "stop")]).settled
        ≠ some (Except.ok
            { content := some "", toolCalls := none,
              finishReason := some "stop" }) := by
  constructor <;> decide

/-- C6 (corrected).  Chunk contents are concatenated in arrival order; on
`done`, a **non-empty** `content` field becomes the final text, otherwise
the accumulated buffer does (an overall empty text resolves as `null`);
in particular chunks `"Hel"`, `"lo"` and a content-less `done` yield
`"Hello"`. -/
theorem c6_stream_accumulation (cs : List String) (d fr : Option String) :
    (wsRun (cs.map chunkEvt ++ [doneEvt d fr])).settled
      = some (Except.ok
          { content :=
              if doneText d (strConcat cs) = "" then none
              else some (doneText d (strConcat cs))
            toolCalls := none
            finishReason := fr })
    ∧ (wsRun [chunkEvt "Hel", chunkEvt "lo", doneEvt none (some "stop")]).settled
        = some (Except.ok
            { content := some "Hello", toolCalls := none,
              finishReason := some "stop" }) := by
  constructor
  · show ((cs.map chunkEvt ++ [doneEvt d fr]).foldl wsStep initWsState).settled = _
    rw [List.foldl_append, wsRun_chunks]
    simp only [List.foldl_cons, List.foldl_nil, doneEvt, wsStep]
    rw [settle_settled_of_none rfl]
    simp [initWsState, strEmpty_append]
  · decide

lemma wsStep_inv {st : WsHandlerState} (h : WsInv st) (e : WsEvent) :
    WsInv (wsStep st e) := by
  obtain ⟨h1, h2, h3⟩ := h
  cases e with
  | message c =>
      rcases c with ⟨ty, co, tc, fr, er⟩
      cases ty
      · rcases co with _ | s
        · exact ⟨h1, h2, h3⟩
        · simp only [wsStep]
          split
          · exact ⟨h1, h2, h3⟩
          · exact ⟨h1, h2, h3⟩
      · rcases tc with _ | tcs
        · exact ⟨h1, h2, h3⟩
        · exact ⟨h1, h2, h3⟩
      · simp only [wsStep]
        exact settle_inv _ _
      · simp only [wsStep]
        exact settle_inv _ _
  | malformedMessage pe =>
      simp only [wsStep]
      split
      · exact ⟨h1, h2, h3⟩
      · exact settle_inv _ _
  | wsError msg =>
      simp only [wsStep]
      split
      · exact ⟨h1, h2, h3⟩
      · exact settle_inv _ _
  | close =>
      simp only [wsStep]
      split
      · exact settle_inv _ _
      · rename_i hcond
        refine ⟨fun hb => h1 hb, fun hb => h2 hb, fun hb => ?_⟩
        rcases not_and_or.mp hcond with hc | hc
        · have hbe : st.hasError = true := by
            cases hhe : st.hasError
            · exact absurd hhe hc
            · rfl
          exact absurd (h1 hbe) (by simp [show st.settled = none from hb])
        · have hfs : st.finishReason.isSome = true := by
            cases hf : st.finishReason
            · exact absurd hf hc
            · rfl
          exact absurd (h2 hfs) (by simp [show st.settled = none from hb])
  | timeoutFire =>
      simp only [wsStep]
      split
      · exact settle_inv _ _
      · exact ⟨h1, h2, h3⟩

lemma wsFoldl_inv (es : List WsEvent) :
    ∀ st : WsHandlerState, WsInv st → WsInv (es.foldl wsStep st) := by
  induction es with
  | nil => intro st h; exact h
  | cons e es ih => intro st h; exact ih _ (wsStep_inv h e)

lemma wsRun_inv (es : List WsEvent) : WsInv (wsRun es) := by
  refine wsFoldl_inv es initWsState ?_
  refine ⟨?_, ?_, ?_⟩ <;> intro h <;> simp_all [initWsState]

lemma wsStep_settled_some {st : WsHandlerState}
    {r : Except String LlmResponse} (h : st.settled = some r) (e : WsEvent) :
    (wsStep st e).settled = some r := by
  cases e with
  | message c =>
      rcases c with ⟨ty, co, tc, fr, er⟩
      cases ty
      · rcases co with _ | s
        · exact h
        · simp only [wsStep]
          split
          · exact h
          · exact h
      · rcases tc with _ | tcs
        · exact h
        · exact h
      · simp only [wsStep]
        apply settle_settled_of_some
        exact h
      · simp only [wsStep]
        apply settle_settled_of_some
        exact h
  | malformedMessage pe =>
      simp only [wsStep]
      split
      · exact h
      · apply settle_settled_of_some
        exact h
  | wsError msg =>
      simp only [wsStep]
      split
      · exact h
      · apply settle_settled_of_some
        exact h
  | close =>
      simp only [wsStep]
      split
      · apply settle_settled_of_some
        exact h
      · exact h
  | timeoutFire =>
      simp only [wsStep]
      split
      · apply settle_settled_of_some
        exact h
      · exact h

lemma wsRun_append_one (es : List WsEvent) (e : WsEvent) :
    wsRun (es ++ [e]) = wsStep (wsRun es) e := by
  show (es ++ [e]).foldl wsStep initWsState = _
  rw [List.foldl_append]
  rfl

/-- C7.  Each `createChatCompletion` settles exactly once: a settled promise
is never re-settled; from a pending state, a `done` chunk resolves, an
`error` chunk rejects with its message, a close without prior `done`
rejects with "WebSocket 连接意外关闭", and the (still armed) 120-second
watchdog rejects with the timeout error. -/
theorem c7_settles_exactly_once (es : List WsEvent) (c : StreamChunk)
    (r : Except String LlmResponse) :
    ((wsRun es).settled = some r →
        ∀ e, (wsRun (es ++ [e])).settled = some r)
    ∧ ((wsRun es).settled = none → c.type = .done →
        ∃ resp, (wsRun (es ++ [WsEvent.message c])).settled
          = some (Except.ok resp))
    ∧ ((wsRun es).settled = none → c.type = .errorTag →
        (wsRun (es ++ [WsEvent.message c])).settled
          = some (Except.error (c.error.getD "未知错误")))
    ∧ ((wsRun es).settled = none →
        (wsRun (es ++ [WsEvent.close])).settled
          = some (Except.error "WebSocket 连接意外关闭"))
    ∧ ((wsRun es).settled = none →
        (wsRun (es ++ [WsEvent.timeoutFire])).settled
          = some (Except.error "WebSocket 请求超时"))
    ∧ watchdogMillis = 120 * 1000 := by
  obtain ⟨h1, h2, h3⟩ := wsRun_inv es
  refine ⟨?_, ?_, ?_, ?_, ?_, rfl⟩
  · intro hset e
    rw [wsRun_append_one]
    exact wsStep_settled_some hset e
  · intro hnone hty
    rw [wsRun_append_one]
    rcases c with ⟨ty, co, tc, fr, er⟩
    cases hty
    simp only [wsStep]
    refine ⟨{ content :=
                if doneText co (wsRun es).accumulatedContent = "" then none
                else some (doneText co (wsRun es).accumulatedContent)
              toolCalls :=
                if (wsRun es).toolCalls.isEmpty = true then none
                else some (wsRun es).toolCalls
              finishReason := fr }, ?_⟩
    apply settle_settled_of_none
    exact hnone
  · intro hnone hty
    rw [wsRun_append_one]
    rcases c with ⟨ty, co, tc, fr, er⟩
    cases hty
    simp only [wsStep]
    apply settle_settled_of_none
    exact hnone
  · intro hnone
    have hhe : (wsRun es).hasError = false := by
      cases hb : (wsRun es).hasError
      · rfl
      · exact absurd (h1 hb) (by simp [hnone])
    have hfr : (wsRun es).finishReason = none := by
      cases hf : (wsRun es).finishReason with
      | none => rfl
      | some v => exact absurd (h2 (by simp [hf])) (by simp [hnone])
    rw [wsRun_append_one]
    simp only [wsStep]
    split
    · apply settle_settled_of_none
      exact hnone
    · rename_i hcond
      exact absurd ⟨hhe, hfr⟩ hcond
  · intro hnone
    have hhe : (wsRun es).hasError = false := by
      cases hb : (wsRun es).hasError
      · rfl
      · exact absurd (h1 hb) (by simp [hnone])
    have hta : (wsRun es).timeoutActive = true := h3 hnone
    rw [wsRun_append_one]
    simp only [wsStep]
    split
    · apply settle_settled_of_none
      exact hnone
    · rename_i hcond
      exact absurd ⟨hta, hhe⟩ hcond

/-- A plain `done{finish_reason:"stop"}` chunk. -/
def plainDoneChunk : StreamChunk :=
  { type := .done, content := none, toolCalls := none,
    finishReason := some "stop", error := none }

/-- Witness for `c7_settles_exactly_once`: from the initial pending state,
a bare close rejects with the unexpected-close error and a timeout firing
rejects with the timeout error. -/
theorem c7_settles_exactly_once_witness :
    (wsRun ([] ++ [WsEvent.close])).settled
        = some (Except.error "WebSocket 连接意外关闭")
    ∧ (wsRun ([] ++ [WsEvent.timeoutFire])).settled
        = some (Except.error "WebSocket 请求超时") :=
  ⟨(c7_settles_exactly_once [] plainDoneChunk (Except.error "x")).2.2.2.1 rfl,
   (c7_settles_exactly_once [] plainDoneChunk (Except.error "x")).2.2.2.2.1 rfl⟩

/-! ## Conversation manager: history, keyword heuristic, agent loop -/

/-- `AgentRole` from `llmClient.ts`. -/
inductive AgentRole
  | system
  | user
  | assistant
  | tool
  deriving DecidableEq, Repr

/-- The metadata entries the manager actually writes: `toolCalls` /
`finishReason` on assistant messages, `toolName` / `raw` / `isError` /
`callId` on tool messages, and the `error` flag on failure bubbles. -/
structure MsgMeta where
  toolCalls : Option (List ToolCall) := none
  finishReason : Option (Option String) := none
  toolName : Option String := none
  raw : Option (Option McpCallResult) := none
  isError : Option Bool := none
  callId : Option String := none
  errorFlag : Bool := false
  deriving DecidableEq, Repr

/-- `AgentMessage`; `randomUUID()` is modelled by a fresh counter value, and
`createdAt` is omitted because no logic reads it. -/
structure AgentMessage where
  id : Nat
  role : AgentRole
  content : String
  metadata : MsgMeta
  deriving DecidableEq, Repr

/-- The `SYSTEM_PROMPT` constant of `llmClient.ts`. -/
def SYSTEM_PROMPT : String :=
  "你是一名熟悉小红书平台运营和数据的智能助理。你可以通过 MCP 工具访问小红书相关的接口，例如检测登录状态、获取二维码、发布笔记、搜索内容等。\n\n重要：当用户提出涉及小红书的具体操作或查询时，你必须使用提供的工具来获取真实数据，而不是猜测或编造答案。\n\n使用说明：\n1. 当用户询问小红书相关内容（如搜索、发布、查看笔记等）时，必须调用相应的工具。\n2. 工具执行成功后，将结果整理成自然语言回答；必要时引用关键字段。\n3. 如果工具调用失败，请分析错误并给出下一步建议。\n4. 若需求与小红书无关，可直接回答，但请说明你主要擅长小红书运营相关工作。\n5. 始终以中文回答，语气专业、简洁、友好。\n\n可用工具已通过 tools 参数提供，请根据用户需求选择合适的工具并调用。"

/-- `MAX_ITERATIONS` from `llmClient.ts`. -/
def MAX_ITERATIONS : Nat := 6

/-- `String.prototype.toLowerCase()` (ASCII letters; CJK is unaffected). -/
def lowerStr (s : String) : String :=
  String.mk (s.toList.map Char.toLower)

/-- Substring check over character lists (`String.prototype.includes`). -/
def infixCheck (n : List Char) : List Char → Bool
  | [] => n.isEmpty
  | c :: cs => n.isPrefixOf (c :: cs) || infixCheck n cs

/-- `hay.includes(needle)`. -/
def strContains (hay needle : String) : Bool :=
  infixCheck needle.toList hay.toList

/-- The fixed keyword list of the tool-need heuristic in `runAgentLoop`. -/
def toolNeedKeywords : List String :=
  ["搜索", "查找", "发布", "登录", "查看", "获取", "list", "search",
   "publish", "agent"]

/-- `needsToolCall`: the latest user message exists and its lowercased
content contains one of the keywords. -/
def needsToolCallB (lastUserMessage : Option String) : Bool :=
  match lastUserMessage with
  | none => false
  | some lum => toolNeedKeywords.any fun k => strContains lum k

/-- The lowercased content of the latest `user` message
(`messages.slice().reverse().find(m => m.role === 'user')`). -/
def lastUserContentLower (msgs : List AgentMessage) : Option String :=
  (msgs.reverse.find? fun m => m.role == AgentRole.user).map
    fun m => lowerStr m.content

/-- The forced tool picked on iteration 2 (`suggestedTool` if-chain). -/
def suggestedToolFor (lum : Option String) : String :=
  match lum with
  | none => "search_feeds"
  | some l =>
      if strContains l "搜索" || strContains l "search" then "search_feeds"
      else if strContains l "发布" || strContains l "publish" then
        "publish_content"
      else if strContains l "登录" || strContains l "login" then
        "check_login_status"
      else "search_feeds"

/-- A model-facing message as `buildChatMessages` produces it. -/
inductive ChatMessage
  | system (content : String)
  | user (content : String)
  | assistant (content : String) (toolCalls : Option (List ToolCall))
  | tool (toolCallId : String) (content : String)
  deriving DecidableEq, Repr

/-- `ConversationManager.buildChatMessages` (`llmClient.ts` lines 728-771):
system/user pass through; an assistant message with recorded tool calls
carries them along; a tool message is kept only when it has a truthy
`callId`. -/
def buildChatMessages (msgs : List AgentMessage) : List ChatMessage :=
  msgs.filterMap fun m =>
    match m.role with
    | .system => some (.system m.content)
    | .user => some (.user m.content)
    | .assistant =>
        match m.metadata.toolCalls with
        | some tcs => some (.assistant m.content (some tcs))
        | none => some (.assistant m.content none)
    | .tool =>
        match m.metadata.callId with
        | some cid => if cid = "" then none else some (.tool cid m.content)
        | none => none

/-- The loop-visible state: the history, the fresh-id counter, whether a
tool has ever been called in this request, and the last model response. -/
structure LoopState where
  history : List AgentMessage
  nextId : Nat
  hasCalledTool : Bool
  lastResponse : Option LlmResponse
  deriving Repr

/-- `appendMessage`: push a record with a fresh id. -/
def LoopState.push (st : LoopState) (role : AgentRole) (content : String)
    (meta : MsgMeta) : LoopState :=
  { st with
      history := st.history ++ [⟨st.nextId, role, content, meta⟩]
      nextId := st.nextId + 1 }

/-- `response.toolCalls && response.toolCalls.length > 0` on the previous
response (`!lastResponse?.toolCalls?.length` is true when there is no
previous response). -/
def respNoToolCallsB : Option LlmResponse → Bool
  | none => true
  | some r => (r.toolCalls.getD []).isEmpty

/-- `lastResponse?.finishReason === 'stop'` (false when absent). -/
def lastFinishStopB : Option LlmResponse → Bool
  | none => false
  | some r => r.finishReason == some "stop"

/-- One tool round of `runAgentLoop`: record the assistant message carrying
the calls, then execute each call in order via `executeToolCall`, appending
a tool message tagged with the call id; mark `hasCalledTool`. -/
def applyToolRound (st : LoopState) (r : LlmResponse)
    (toolOutcome : ToolCall → Except String McpCallResult) : LoopState :=
  let calls := r.toolCalls.getD []
  let st1 := st.push .assistant (r.content.getD "")
    { toolCalls := some calls }
  let st2 := calls.foldl
    (fun acc call =>
      let result := executeToolCall call (toolOutcome call)
      acc.push .tool result.content
        { toolName := some call.name
          raw := some result.raw
          isError := some result.isError
          callId := some call.id })
    st1
  { st2 with hasCalledTool := true, lastResponse := some r }

/-- The emphasis message appended on iteration 1 when a tool seems needed. -/
def firstIterEmphasis : String :=
  "重要：你必须使用提供的工具来执行操作。不要只是描述你会做什么，必须实际调用工具。"

/-- The corrective reminder pushed when forcing a tool on iteration 2. -/
def reminderText (tool : String) : String :=
  "你必须使用工具来执行操作。请立即调用 " ++ tool ++
    " 工具，不要只是说\"开始搜索\"或\"请稍候\"。工具调用是必需的，不能跳过。"

/-- The user-facing error raised when a needed tool was never called. -/
def modelNoToolsError : String :=
  "模型没有调用工具。这可能是因为：\n1. 当前模型可能不支持工具调用功能\n2. 请尝试切换到标准的模型名称（如 deepseek-chat）\n3. 请检查 API 服务是否支持工具调用功能"

/-- How a run of `runAgentLoop` can fail: the no-tool-call error, or the
response oracle ran out (the `createChatCompletion` await never resolves in
the modelled trace). -/
inductive AgentFailure
  | modelDidNotCallTools
  | awaitingResponse
  deriving DecidableEq, Repr

/-- One outgoing `createChatCompletion` request of the loop: the message
list, the forced `toolChoice` (a function name) if any, and whether the
stream callback was passed. -/
structure AgentRequest where
  messages : List ChatMessage
  toolChoice : Option String
  streamed : Bool
  deriving DecidableEq, Repr

/-- The body of `ConversationManager.runAgentLoop` (`llmClient.ts` lines
498-679), fuel = remaining iterations.  `iter0` is the value of
`iterations` before the increment at the top of the `while`.  The model
responses are an oracle list consumed one per iteration. -/
def agentLoopGo (tds : List ToolFunctionDef)
    (toolOutcome : ToolCall → Except String McpCallResult)
    (needsToolCall : Bool) (lum : Option String) :
    Nat → Nat → LoopState → List LlmResponse →
    List AgentRequest × LoopState × Except AgentFailure (Option LlmResponse)
  | 0, _, st, _ => ([], st, .ok st.lastResponse)
  | fuel + 1, iter0, st, rs =>
      let iter := iter0 + 1
      let msgs0 := buildChatMessages st.history
      let force :=
        iter == 2 && needsToolCall && !st.hasCalledTool &&
          respNoToolCallsB st.lastResponse && lastFinishStopB st.lastResponse
      let forcedToolChoice : Option String :=
        if force then some (suggestedToolFor lum) else none
      let msgs :=
        if force then
          msgs0 ++ [ChatMessage.user (reminderText (suggestedToolFor lum))]
        else msgs0
      if iter == 1 && needsToolCall && decide (0 < tds.length) then
        match rs with
        | [] => ([], st, .error .awaitingResponse)
        | r :: rest =>
            let req : AgentRequest :=
              { messages := msgs ++ [ChatMessage.user firstIterEmphasis]
                toolChoice := forcedToolChoice
                streamed := false }
            if (r.toolCalls.getD []).isEmpty then
              let st' := { st with lastResponse := some r }
              let next :=
                agentLoopGo tds toolOutcome needsToolCall lum fuel iter st' rest
              (req :: next.1, next.2)
            else
              let st' := applyToolRound st r toolOutcome
              let next :=
                agentLoopGo tds toolOutcome needsToolCall lum fuel iter st' rest
              (req :: next.1, next.2)
      else
        let shouldStream :=
          !needsToolCall || st.hasCalledTool ||
            decide (MAX_ITERATIONS - 1 ≤ iter)
        match rs with
        | [] => ([], st, .error .awaitingResponse)
        | r :: rest =>
            let req : AgentRequest :=
              { messages := msgs
                toolChoice := forcedToolChoice
                streamed := shouldStream }
            if (r.toolCalls.getD []).isEmpty then
              let st' := { st with lastResponse := some r }
              if needsToolCall && !st.hasCalledTool &&
                  (r.finishReason == some "stop") && decide (2 ≤ iter) then
                ([req], st', .error .modelDidNotCallTools)
              else ([req], st', .ok (some r))
            else
              let st' := applyToolRound st r toolOutcome
              let next :=
                agentLoopGo tds toolOutcome needsToolCall lum fuel iter st' rest
              (req :: next.1, next.2)

/-- `runAgentLoop` entry: derive the heuristic inputs from the history and
run up to `MAX_ITERATIONS` iterations. -/
def runAgentLoop (tds : List ToolFunctionDef)
    (toolOutcome : ToolCall → Except String McpCallResult)
    (history : List AgentMessage) (nextId : Nat) (rs : List LlmResponse) :
    List AgentRequest × LoopState × Except AgentFailure (Option LlmResponse) :=
  let lum := lastUserContentLower history
  agentLoopGo tds toolOutcome (needsToolCallB lum) lum MAX_ITERATIONS 0
    { history := history, nextId := nextId, hasCalledTool := false,
      lastResponse := none } rs

lemma needsTool_of_search {l : String} (h : strContains l "search" = true) :
    needsToolCallB (some l) = true := by
  show (toolNeedKeywords.any fun k => strContains l k) = true
  refine List.any_eq_true.mpr ⟨"search", by simp [toolNeedKeywords], h⟩

lemma agentLoopGo_no_force (tds : List ToolFunctionDef)
    (toolOutcome : ToolCall → Except String McpCallResult)
    (needs : Bool) (lum : Option String) :
    ∀ fuel iter0 (st : LoopState) (rs : List LlmResponse), 2 ≤ iter0 →
      ∀ req ∈ (agentLoopGo tds toolOutcome needs lum fuel iter0 st rs).1,
        req.toolChoice = none := by
  intro fuel
  induction fuel with
  | zero =>
      intro iter0 st rs h req hreq
      simp [agentLoopGo] at hreq
  | succ fuel ih =>
      intro iter0 st rs h req hreq
      have h2 : (iter0 + 1 == 2) = false :=
        beq_eq_false_iff_ne.mpr (by omega)
      have h1 : (iter0 + 1 == 1) = false :=
        beq_eq_false_iff_ne.mpr (by omega)
      rcases rs with _ | ⟨r, rest⟩
      · simp [agentLoopGo, h1, h2] at hreq
      · by_cases he : (r.toolCalls.getD []).isEmpty
        · simp only [agentLoopGo, h1, h2, Bool.false_and, Bool.and_false,
            if_false, Bool.false_eq_true, if_neg, he, if_true] at hreq
          split at hreq <;>
            simp_all
        · simp only [agentLoopGo, h1, h2, Bool.false_and, Bool.and_false,
            if_false, Bool.false_eq_true, he, if_true] at hreq
          rcases List.mem_cons.mp hreq with hq | hq
          · subst hq; rfl
          · exact ih (iter0 + 1) _ rest (by omega) req hq

/-- C2.  When the latest user message contains the keyword `search`, the
tool catalog is non-empty, and the first model response has no tool calls
and finish reason `stop`, the loop's second outgoing request carries a
`tool_choice` forcing a specific tool; no other request of the run carries
one (forcing happens at most once); and if the second response again has no
tool calls and finish reason `stop` while no tool was ever called, the loop
raises the distinct model-may-not-support-tools error instead of returning
the answer. -/
theorem c2_forced_tool_heuristic
    (hist : List AgentMessage) (nid : Nat) (m : AgentMessage)
    (tds : List ToolFunctionDef)
    (toolOutcome : ToolCall → Except String McpCallResult)
    (r1 r2 : LlmResponse) (rest : List LlmResponse)
    (hLast : (hist.reverse.find? fun mm => mm.role == AgentRole.user) = some m)
    (hKw : strContains (lowerStr m.content) "search" = true)
    (hTds : 0 < tds.length)
    (h1a : r1.toolCalls.getD [] = [])
    (h1b : r1.finishReason = some "stop") :
    ((runAgentLoop tds toolOutcome hist nid (r1 :: r2 :: rest)).1.get? 1).map
        AgentRequest.toolChoice
      = some (some (suggestedToolFor (some (lowerStr m.content))))
    ∧ (runAgentLoop tds toolOutcome hist nid (r1 :: r2 :: rest)).1.countP
        (fun req => req.toolChoice.isSome) ≤ 1
    ∧ (r2.toolCalls.getD [] = [] → r2.finishReason = some "stop" →
        (runAgentLoop tds toolOutcome hist nid (r1 :: r2 :: rest)).2.2
          = Except.error AgentFailure.modelDidNotCallTools) := by
  have hlum : lastUserContentLower hist = some (lowerStr m.content) := by
    simp [lastUserContentLower, hLast]
  have hneeds : needsToolCallB (some (lowerStr m.content)) = true :=
    needsTool_of_search hKw
  have hrun : runAgentLoop tds toolOutcome hist nid (r1 :: r2 :: rest)
      = agentLoopGo tds toolOutcome true (some (lowerStr m.content)) 6 0
          ⟨hist, nid, false, none⟩ (r1 :: r2 :: rest) := by
    simp only [runAgentLoop, MAX_ITERATIONS, hlum, hneeds]
  have hstep1 : agentLoopGo tds toolOutcome true (some (lowerStr m.content)) 6 0
        ⟨hist, nid, false, none⟩ (r1 :: r2 :: rest)
      = ({ messages :=
             buildChatMessages hist ++ [ChatMessage.user firstIterEmphasis]
           toolChoice := none
           streamed := false } ::
          (agentLoopGo tds toolOutcome true (some (lowerStr m.content)) 5 1
            ⟨hist, nid, false, some r1⟩ (r2 :: rest)).1,
         (agentLoopGo tds toolOutcome true (some (lowerStr m.content)) 5 1
            ⟨hist, nid, false, some r1⟩ (r2 :: rest)).2) := by
    simp [agentLoopGo, hTds, h1a]
  by_cases h2e : (r2.toolCalls.getD []).isEmpty = true
  · have hstep2 :
        (agentLoopGo tds toolOutcome true (some (lowerStr m.content)) 5 1
          ⟨hist, nid, false, some r1⟩ (r2 :: rest)).1
        = [{ messages :=
               buildChatMessages hist ++
                 [ChatMessage.user
                   (reminderText (suggestedToolFor (some (lowerStr m.content))))]
             toolChoice := some (suggestedToolFor (some (lowerStr m.content)))
             streamed := false }] := by
      simp only [agentLoopGo, respNoToolCallsB, lastFinishStopB, h1a, h1b,
        h2e]
      simp [MAX_ITERATIONS]
      split <;> rfl
    refine ⟨?_, ?_, ?_⟩
    · rw [hrun, hstep1]
      simp [hstep2]
    · rw [hrun, hstep1]
      simp [hstep2, List.countP_cons]
    · intro h2a h2b
      rw [hrun, hstep1]
      have : (agentLoopGo tds toolOutcome true (some (lowerStr m.content)) 5 1
            ⟨hist, nid, false, some r1⟩ (r2 :: rest)).2.2
          = Except.error AgentFailure.modelDidNotCallTools := by
        simp [agentLoopGo, MAX_ITERATIONS, respNoToolCallsB, lastFinishStopB,
          h1a, h1b, h2a, h2b]
      simpa using this
  · have hstep2 :
        agentLoopGo tds toolOutcome true (some (lowerStr m.content)) 5 1
          ⟨hist, nid, false, some r1⟩ (r2 :: rest)
        = ({ messages :=
               buildChatMessages hist ++
                 [ChatMessage.user
                   (reminderText (suggestedToolFor (some (lowerStr m.content))))]
             toolChoice := some (suggestedToolFor (some (lowerStr m.content)))
             streamed := false } ::
            (agentLoopGo tds toolOutcome true (some (lowerStr m.content)) 4 2
              (applyToolRound ⟨hist, nid, false, some r1⟩ r2 toolOutcome)
              rest).1,
           (agentLoopGo tds toolOutcome true (some (lowerStr m.content)) 4 2
              (applyToolRound ⟨hist, nid, false, some r1⟩ r2 toolOutcome)
              rest).2) := by
      simp [agentLoopGo, MAX_ITERATIONS, respNoToolCallsB, lastFinishStopB,
        h1a, h1b, h2e]
    have htail : ∀ req ∈ (agentLoopGo tds toolOutcome true
          (some (lowerStr m.content)) 4 2
          (applyToolRound ⟨hist, nid, false, some r1⟩ r2 toolOutcome) rest).1,
        req.toolChoice = none :=
      agentLoopGo_no_force tds toolOutcome true (some (lowerStr m.content))
        4 2 _ rest (by omega)
    refine ⟨?_, ?_, ?_⟩
    · rw [hrun, hstep1, hstep2]
      simp
    · rw [hrun, hstep1, hstep2]
      simp only [List.countP_cons]
      have hzero : (agentLoopGo tds toolOutcome true
            (some (lowerStr m.content)) 4 2
            (applyToolRound ⟨hist, nid, false, some r1⟩ r2 toolOutcome)
            rest).1.countP (fun req => req.toolChoice.isSome) = 0 := by
        refine List.countP_eq_zero.mpr ?_
        intro req hreq
        simp [htail req hreq]
      simp [hzero]
    · intro h2a _
      exact absurd (by simp [h2a] : (r2.toolCalls.getD []).isEmpty = true) h2e

/-- Witness for `c2_forced_tool_heuristic` at a concrete run: history
`[system, user "please search cats"]`, one catalog tool, and two
no-tool-call `stop` responses. -/
theorem c2_forced_tool_heuristic_witness :
    ((runAgentLoop
        [ensureToolDefinition
          { name := "search_feeds", description := none, inputSchema := none }]
        (fun _ => Except.error "no backend")
        [⟨0, AgentRole.system, SYSTEM_PROMPT, {}⟩,
         ⟨1, AgentRole.user, "please search cats", {}⟩] 2
        [{ content := some "I will search", toolCalls := none,
           finishReason := some "stop" },
         { content := some "sorry", toolCalls := none,
           finishReason := some "stop" }]).1.get? 1).map
        AgentRequest.toolChoice
      = some (some (suggestedToolFor (some (lowerStr "please search cats"))))
    ∧ (runAgentLoop
        [ensureToolDefinition
          { name := "search_feeds", description := none, inputSchema := none }]
        (fun _ => Except.error "no backend")
        [⟨0, AgentRole.system, SYSTEM_PROMPT, {}⟩,
         ⟨1, AgentRole.user, "please search cats", {}⟩] 2
        [{ content := some "I will search", toolCalls := none,
           finishReason := some "stop" },
         { content := some "sorry", toolCalls := none,
           finishReason := some "stop" }]).1.countP
        (fun req => req.toolChoice.isSome) ≤ 1
    ∧ ((({ content := some "sorry", toolCalls := none,
           finishReason := some "stop" } : LlmResponse).toolCalls.getD [] = [])
        → ({ content := some "sorry", toolCalls := none,
             finishReason := some "stop" } : LlmResponse).finishReason
            = some "stop"
        → (runAgentLoop
            [ensureToolDefinition
              { name := "search_feeds", description := none,
                inputSchema := none }]
            (fun _ => Except.error "no backend")
            [⟨0, AgentRole.system, SYSTEM_PROMPT, {}⟩,
             ⟨1, AgentRole.user, "please search cats", {}⟩] 2
            [{ content := some "I will search", toolCalls := none,
               finishReason := some "stop" },
             { content := some "sorry", toolCalls := none,
               finishReason := some "stop" }]).2.2
            = Except.error AgentFailure.modelDidNotCallTools) :=
  c2_forced_tool_heuristic
    [⟨0, AgentRole.system, SYSTEM_PROMPT, {}⟩,
     ⟨1, AgentRole.user, "please search cats", {}⟩] 2
    ⟨1, AgentRole.user, "please search cats", {}⟩
    [ensureToolDefinition
      { name := "search_feeds", description := none, inputSchema := none }]
    (fun _ => Except.error "no backend")
    { content := some "I will search", toolCalls := none,
      finishReason := some "stop" }
    { content := some "sorry", toolCalls := none, finishReason := some "stop" }
    [] (by decide) (by decide) (by decide) (by decide) (by decide)

/-! ## History ownership: `appendMessage`, streaming growth,
`resetConversation` -/

/-- The manager's message store plus the fresh-id counter standing in for
`randomUUID()`. -/
structure ConvHistory where
  messages : List AgentMessage
  nextId : Nat
  deriving DecidableEq, Repr

/-- `appendMessage`: push a record with a fresh id. -/
def appendMessageH (h : ConvHistory) (role : AgentRole) (content : String)
    (meta : MsgMeta) : ConvHistory :=
  { messages := h.messages ++ [⟨h.nextId, role, content, meta⟩]
    nextId := h.nextId + 1 }

/-- The constructor's state: `appendMessage({role:'system', content:
SYSTEM_PROMPT})` on an empty list. -/
def initialConversation : ConvHistory :=
  appendMessageH { messages := [], nextId := 0 } .system SYSTEM_PROMPT {}

/-- `resetConversation`: clear the list, then re-append the system prompt. -/
def resetConversationH (h : ConvHistory) : ConvHistory :=
  appendMessageH { h with messages := [] } .system SYSTEM_PROMPT {}

/-- The mutations `sendUserMessage` (and the stream callback inside it)
performs on the history: appends, in-place content growth of a message
found by id (`msg.content += chunk.content`), in-place metadata replacement
of a message found by id, and the explicit reset. -/
inductive HistoryOp
  | append (role : AgentRole) (content : String) (meta : MsgMeta)
  | growContent (id : Nat) (extra : String)
  | setMeta (id : Nat) (meta : MsgMeta)
  | reset
  deriving Repr

/-- Apply one mutation (`find` by id is a map over the unique match). -/
def applyHistoryOp (h : ConvHistory) : HistoryOp → ConvHistory
  | .append r c meta => appendMessageH h r c meta
  | .growContent id extra =>
      { h with
          messages := h.messages.map fun msg =>
            if msg.id = id then { msg with content := msg.content ++ extra }
            else msg }
  | .setMeta id meta =>
      { h with
          messages := h.messages.map fun msg =>
            if msg.id = id then { msg with metadata := meta } else msg }
  | .reset => resetConversationH h

/-- The discipline the code obeys: in-place growth and metadata updates only
ever target `assistantMessageId` — the id of an *assistant* message present
in the history (created by an `appendMessage` of this request). -/
def validHistoryOp (h : ConvHistory) : HistoryOp → Bool
  | .growContent id _ =>
      h.messages.any fun msg => msg.id == id && msg.role == AgentRole.assistant
  | .setMeta id _ =>
      h.messages.any fun msg => msg.id == id && msg.role == AgentRole.assistant
  | _ => true

/-- A whole mutation sequence is valid when each op is valid in the state it
runs against. -/
def validHistoryOps : ConvHistory → List HistoryOp → Bool
  | _, [] => true
  | h, op :: ops =>
      validHistoryOp h op && validHistoryOps (applyHistoryOp h op) ops

/-- Run a mutation sequence. -/
def applyHistoryOps (h : ConvHistory) (ops : List HistoryOp) : ConvHistory :=
  ops.foldl applyHistoryOp h

/-- The C10 invariant: non-empty history whose first message is the system
prompt, plus the bookkeeping that makes it preservable (ids below the
counter and pairwise distinct). -/
def ConvInv (h : ConvHistory) : Prop :=
  h.messages ≠ []
  ∧ (h.messages.head?.all fun m0 =>
      m0.role == AgentRole.system && m0.content == SYSTEM_PROMPT) = true
  ∧ (∀ msg ∈ h.messages, msg.id < h.nextId)
  ∧ (h.messages.map AgentMessage.id).Nodup

lemma convInv_append {h : ConvHistory} (hInv : ConvInv h) (r : AgentRole)
    (c : String) (meta : MsgMeta) : ConvInv (appendMessageH h r c meta) := by
  obtain ⟨hne, hhead, hids, hnd⟩ := hInv
  rcases hmsgs : h.messages with _ | ⟨m0, restm⟩
  · exact absurd hmsgs hne
  refine ⟨by simp [appendMessageH, hmsgs], ?_, ?_, ?_⟩
  · simpa [appendMessageH, hmsgs] using (by rw [hmsgs] at hhead; simpa using hhead)
  · intro msg hm
    simp only [appendMessageH, List.mem_append, List.mem_singleton] at hm
    rcases hm with hm | hm
    · exact Nat.lt_succ_of_lt (hids msg hm)
    · subst hm; exact Nat.lt_succ_self _
  · simp only [appendMessageH, List.map_append, List.map_cons, List.map_nil]
    rw [List.nodup_append]
    refine ⟨hnd, List.nodup_singleton _, ?_⟩
    intro a ha hb
    simp only [List.mem_singleton] at hb
    subst hb
    rcases List.mem_map.mp ha with ⟨msg, hmem, hid⟩
    exact absurd (hid ▸ hids msg hmem) (lt_irrefl _)

lemma convInv_touch {h : ConvHistory} (hInv : ConvInv h)
    (f : AgentMessage → AgentMessage) (id : Nat)
    (hfid : ∀ msg, (f msg).id = msg.id)
    (htarget : (h.messages.any fun msg =>
        msg.id == id && msg.role == AgentRole.assistant) = true) :
    ConvInv { h with
      messages := h.messages.map fun msg =>
        if msg.id = id then f msg else msg } := by
  obtain ⟨hne, hhead, hids, hnd⟩ := hInv
  rcases hmsgs : h.messages with _ | ⟨m0, restm⟩
  · exact absurd hmsgs hne
  rw [hmsgs] at hhead hids hnd htarget
  have hm0 : m0.role = AgentRole.system ∧ m0.content = SYSTEM_PROMPT := by
    simpa using hhead
  have hndr : m0.id ∉ restm.map AgentMessage.id ∧
      (restm.map AgentMessage.id).Nodup := by
    simpa using hnd
  have hm0id : m0.id ≠ id := by
    intro hEq
    obtain ⟨w, hwmem, hw⟩ := List.any_eq_true.mp htarget
    obtain ⟨hw1, hw2⟩ := (Bool.and_eq_true _ _).mp hw
    have hwid : w.id = id := eq_of_beq hw1
    have hwrole : w.role = AgentRole.assistant := eq_of_beq hw2
    rcases List.mem_cons.mp hwmem with hwm | hwm
    · subst hwm
      rw [hm0.1] at hwrole
      cases hwrole
    · have hmem : w.id ∈ restm.map AgentMessage.id :=
        List.mem_map_of_mem _ hwm
      rw [hwid, ← hEq] at hmem
      exact hndr.1 hmem
  refine ⟨by simp, ?_, ?_, ?_⟩
  · simp [hm0id, hm0.1, hm0.2]
  · intro msg hm
    simp only [List.mem_map] at hm
    obtain ⟨src, hsrc, hEq⟩ := hm
    subst hEq
    by_cases hc : src.id = id
    · rw [if_pos hc, hfid]
      exact hids src hsrc
    · rw [if_neg hc]
      exact hids src hsrc
  · have hmapid : ((m0 :: restm).map fun msg =>
        if msg.id = id then f msg else msg).map AgentMessage.id
        = (m0 :: restm).map AgentMessage.id := by
      rw [List.map_map]
      refine List.map_congr_left ?_
      intro msg _
      by_cases hc : msg.id = id
      · simp [hc, hfid]
      · simp [hc]
    show (((m0 :: restm).map fun msg =>
        if msg.id = id then f msg else msg).map AgentMessage.id).Nodup
    rw [hmapid]
    exact hnd

lemma convInv_reset {h : ConvHistory} : ConvInv (resetConversationH h) := by
  refine ⟨by simp [resetConversationH, appendMessageH], ?_, ?_, ?_⟩
  · simp [resetConversationH, appendMessageH]
  · intro msg hm
    simp only [resetConversationH, appendMessageH, List.nil_append,
      List.mem_singleton] at hm
    subst hm
    exact Nat.lt_succ_self _
  · simp [resetConversationH, appendMessageH]

lemma convInv_op {h : ConvHistory} (hInv : ConvInv h) {op : HistoryOp}
    (hv : validHistoryOp h op = true) : ConvInv (applyHistoryOp h op) := by
  cases op with
  | append r c meta => exact convInv_append hInv r c meta
  | growContent id extra =>
      exact convInv_touch hInv
        (fun msg => { msg with content := msg.content ++ extra }) id
        (fun _ => rfl) hv
  | setMeta id meta =>
      exact convInv_touch hInv (fun msg => { msg with metadata := meta }) id
        (fun _ => rfl) hv
  | reset => exact convInv_reset

lemma convInv_ops (ops : List HistoryOp) :
    ∀ h : ConvHistory, ConvInv h → validHistoryOps h ops = true →
      ConvInv (applyHistoryOps h ops) := by
  induction ops with
  | nil => intro h hInv _; exact hInv
  | cons op ops ih =>
      intro h hInv hv
      obtain ⟨hv1, hv2⟩ := (Bool.and_eq_true _ _).mp hv
      exact ih _ (convInv_op hInv hv1) hv2

/-- C10.  The conversation history is always non-empty with the fixed system
prompt first: after construction, after any valid sequence of the mutations
`sendUserMessage` performs (appends, plus content growth / metadata updates
targeting an assistant message found by its id), and after
`resetConversation`. -/
theorem c10_system_prompt_invariant (h : ConvHistory) (ops : List HistoryOp)
    (hInv : ConvInv h) (hValid : validHistoryOps h ops = true) :
    ConvInv initialConversation
    ∧ ConvInv (applyHistoryOps h ops)
    ∧ ConvInv (resetConversationH h) := by
  refine ⟨?_, convInv_ops ops h hInv hValid, convInv_reset⟩
  refine ⟨by simp [initialConversation, appendMessageH], ?_, ?_, ?_⟩
  · simp [initialConversation, appendMessageH]
  · intro msg hm
    simp only [initialConversation, appendMessageH, List.nil_append,
      List.mem_singleton] at hm
    subst hm
    exact Nat.lt_succ_self _
  · simp [initialConversation, appendMessageH]

/-- Witness for `c10_system_prompt_invariant`: a user message, a streamed
assistant message grown in place, and a metadata finalization. -/
theorem c10_system_prompt_invariant_witness :
    ConvInv initialConversation
    ∧ ConvInv (applyHistoryOps initialConversation
        [HistoryOp.append AgentRole.user "帮我搜索" {},
         HistoryOp.append AgentRole.assistant "好" {},
         HistoryOp.growContent 2 "的",
         HistoryOp.setMeta 2 { finishReason := some (some "stop") }])
    ∧ ConvInv (resetConversationH initialConversation) :=
  c10_system_prompt_invariant initialConversation
    [HistoryOp.append AgentRole.user "帮我搜索" {},
     HistoryOp.append AgentRole.assistant "好" {},
     HistoryOp.growContent 2 "的",
     HistoryOp.setMeta 2 { finishReason := some (some "stop") }]
    (by refine ⟨by decide, by decide, ?_, by decide⟩
        intro msg hm
        simp only [initialConversation, appendMessageH, List.nil_append,
          List.mem_singleton] at hm
        subst hm
        decide)
    (by decide)

/-! ## Request serialization: `sendUserMessage` and the `enqueue` chain -/

/-- Manager state visible to the queue: the history and `isProcessing`. -/
structure MgrState where
  history : ConvHistory
  isProcessing : Bool
  deriving Repr

/-- The externally observable actions of one `sendUserMessage` run: history
appends, `status` transitions of the `isProcessing` flag, and error
emissions. -/
inductive QEvent
  | appendEvt (msg : AgentMessage)
  | setProcessing (b : Bool)
  | errorEvt (msg : String)
  deriving DecidableEq, Repr

/-- The environment one queued request runs against: the backend base URL
(`none` = backend not started), whether an LLM client could be configured,
the `listTools` outcome, the model-response oracle, and the MCP tool-call
oracle. -/
structure AgentEnv where
  backendBaseUrl : Option String
  llmConfigured : Bool
  toolsResult : Except String (List McpTool)
  responses : List LlmResponse
  toolOutcome : ToolCall → Except String McpCallResult

/-- The guarded body of one `sendUserMessage` run: backend check, client
check, `ensureTools`, then `runAgentLoop` over the oracle inputs; it
returns the history as left by the loop (mutations made before a failure
persist, as in the source) and the outcome. -/
def sendBody (env : AgentEnv) (h1 : ConvHistory) :
    ConvHistory × Except String (Option LlmResponse) :=
  match env.backendBaseUrl with
  | none => (h1, .error "后端服务尚未启动")
  | some _ =>
      if env.llmConfigured = false then
        (h1, .error "尚未配置可用的 LLM API Key")
      else
        match env.toolsResult with
        | .error e => (h1, .error e)
        | .ok tools =>
            let tds := tools.map ensureToolDefinition
            let lum := lastUserContentLower h1.messages
            let out := agentLoopGo tds env.toolOutcome (needsToolCallB lum)
              lum MAX_ITERATIONS 0
              ⟨h1.messages, h1.nextId, false, none⟩ env.responses
            let h' : ConvHistory := ⟨out.2.1.history, out.2.1.nextId⟩
            match out.2.2 with
            | .error .modelDidNotCallTools => (h', .error modelNoToolsError)
            | .error .awaitingResponse => (h', .error "模型响应未返回")
            | .ok res => (h', .ok res)

/-- `ConversationManager.sendUserMessage` (`llmClient.ts` lines 335-433) as
one queued task: append the user message, raise `isProcessing`, run the
guarded body, then on success append/finalize the assistant answer, on any
failure append the apology bubble and emit an error — and in the `finally`,
lower `isProcessing`.  The streaming callback never fires in this oracle
model (responses arrive whole), so the final answer is always a fresh
append. -/
def sendUserMessageRun (env : AgentEnv) (content : String) (st : MgrState) :
    MgrState × List QEvent :=
  let userMsg : AgentMessage := ⟨st.history.nextId, .user, content, {}⟩
  let h1 := appendMessageH st.history .user content {}
  let evs0 := [QEvent.appendEvt userMsg, QEvent.setProcessing true]
  let b := sendBody env h1
  let h2 := b.1
  let loopEvs := (h2.messages.drop h1.messages.length).map QEvent.appendEvt
  match b.2 with
  | .ok (some r) =>
      let aMsg : AgentMessage :=
        ⟨h2.nextId, .assistant, r.content.getD "(空回复)",
          { finishReason := some r.finishReason }⟩
      ({ history := appendMessageH h2 .assistant (r.content.getD "(空回复)")
            { finishReason := some r.finishReason }
         isProcessing := false },
       evs0 ++ loopEvs ++ [QEvent.appendEvt aMsg, QEvent.setProcessing false])
  | .ok none =>
      ({ history := h2, isProcessing := false },
       evs0 ++ loopEvs ++ [QEvent.setProcessing false])
  | .error e =>
      let aMsg : AgentMessage :=
        ⟨h2.nextId, .assistant, "抱歉，处理请求时出现问题：" ++ e,
          { errorFlag := true }⟩
      ({ history := appendMessageH h2 .assistant
            ("抱歉，处理请求时出现问题：" ++ e) { errorFlag := true }
         isProcessing := false },
       evs0 ++ loopEvs ++
         [QEvent.appendEvt aMsg, QEvent.errorEvt e,
          QEvent.setProcessing false])

/-- The denotation of the `enqueue` chain (`llmClient.ts` lines 788-803):
`processingQueue.then(runTask, runTask)` runs each submitted task only after
the previous promise has settled — fulfilled or rejected — and the queue is
advanced with `.then(() => undefined, () => undefined)`, so a failed task
never blocks the tasks queued after it.  Sequential composition in
submission order is exactly that guarantee. -/
def runQueue (tasks : List (AgentEnv × String)) (st : MgrState) :
    MgrState × List QEvent :=
  match tasks with
  | [] => (st, [])
  | t :: rest =>
      let r := sendUserMessageRun t.1 t.2 st
      let r2 := runQueue rest r.1
      (r2.1, r.2 ++ r2.2)

lemma lastOf_cons_append {α : Type} (x : α) (l t : List α) (a : α)
    (ht : t.getLast? = some a) : (x :: (l ++ t)).getLast? = some a := by
  have hne : t ≠ [] := by
    intro h
    subst h
    simp at ht
  have hsplit : x :: (l ++ t) = (x :: l) ++ t := by simp
  rw [hsplit, List.getLast?_append_of_ne_nil _ hne, ht]

lemma sendUserMessageRun_shape (env : AgentEnv) (content : String)
    (st : MgrState) :
    (sendUserMessageRun env content st).2.head?
      = some (QEvent.appendEvt ⟨st.history.nextId, .user, content, {}⟩)
    ∧ (sendUserMessageRun env content st).2.getLast?
      = some (QEvent.setProcessing false) := by
  simp only [sendUserMessageRun]
  generalize sendBody env
    (appendMessageH st.history AgentRole.user content {}) = b
  rcases b with ⟨h2, res⟩
  rcases res with e | res
  · exact ⟨rfl, lastOf_cons_append _ _ _ _ rfl⟩
  · rcases res with _ | r
    · exact ⟨rfl, lastOf_cons_append _ _ _ _ rfl⟩
    · exact ⟨rfl, lastOf_cons_append _ _ _ _ rfl⟩

/-- C3.  The queue runs `sendUserMessage` tasks strictly in submission
order: the combined trace is the first task's events followed by the second
task's; the first task's trace ends with `isProcessing := false` (its
`finally`), and the second task's first history mutation (its user-message
append) comes only after that — regardless of whether the first task
succeeded or failed, so a failure never blocks later queued requests. -/
theorem c3_fifo_serialization (env1 env2 : AgentEnv) (c1 c2 : String)
    (st : MgrState) :
    runQueue [(env1, c1), (env2, c2)] st
      = ((sendUserMessageRun env2 c2 (sendUserMessageRun env1 c1 st).1).1,
         (sendUserMessageRun env1 c1 st).2
           ++ (sendUserMessageRun env2 c2 (sendUserMessageRun env1 c1 st).1).2)
    ∧ (sendUserMessageRun env1 c1 st).2.getLast?
        = some (QEvent.setProcessing false)
    ∧ (sendUserMessageRun env2 c2 (sendUserMessageRun env1 c1 st).1).2.head?
        = some (QEvent.appendEvt
            ⟨(sendUserMessageRun env1 c1 st).1.history.nextId, .user, c2, {}⟩) := by
  refine ⟨by simp [runQueue], ?_, ?_⟩
  · exact (sendUserMessageRun_shape env1 c1 st).2
  · exact (sendUserMessageRun_shape env2 c2 _).1

end DesktopMcp
